import Mathlib

/-
Verification development for the WIKAI pattern commons
(`wikai/librarian.py`, `wikai/schema.py`, `wikai/observer.py`).

Modelling conventions (shallow embedding):
* Python values are modelled by the inductive type `PyVal`; a Python dict is
  an association list with distinct keys, in insertion order.
* Python floats are modelled as rationals (`ℚ`).  Every numeric literal and
  comparison exercised by the verified claims (0.6, 0.7, 0.8, 0.85, 0.9, ...)
  has the same order relationships for IEEE doubles and for rationals, so the
  abstraction is faithful for these claims.
* A Python exception is modelled as `Option.none`: a function that can raise
  returns an `Option`.  State mutations performed before the raise are not
  retained (no claim observes a state after a raised `observe`).
* `float(x)` (`pyFloat`) converts numbers and booleans, and parses simple
  signed decimal strings; exotic accepted forms (exponents, `inf`, `nan`,
  underscores, surrounding whitespace) are not modelled — no claim exercises
  them.
* The 16-hex-character truncated sha256 used by `_hash_pattern` is modelled by
  its (deterministic) input key `f"{title}:{axiom}"` itself.  All verified
  claims use only that equal inputs give equal hashes, never injectivity of
  the real digest, so this abstraction is sound for them.
* `datetime.utcnow()` / `time.time()` are modelled by an explicit clock
  argument threaded through the operations.
* `str(x)` (`pyStrV`) renders values Python-style; the rendering of rational
  numbers differs textually from CPython float repr, which no claim observes.
-/

set_option maxRecDepth 4000

namespace Wikai

/-- Python values: None, bool, int/float (as ℚ), str, list, dict. -/
inductive PyVal where
  | pnone
  | pbool (b : Bool)
  | pnum (q : ℚ)
  | pstr (s : String)
  | plist (xs : List PyVal)
  | pdict (xs : List (String × PyVal))

/-- A Python dict with string keys, in insertion order. -/
abbrev PyDict := List (String × PyVal)

/-- First-match lookup in an association list (Python dict `get`). -/
def assocGet (k : String) : List (String × α) → Option α
  | [] => Option.none
  | (k', v) :: t => if k' = k then some v else assocGet k t

/-- Dict write: replace the first binding of `k` in place, else append
(Python dict item assignment). -/
def assocSet (k : String) (v : α) : List (String × α) → List (String × α)
  | [] => [(k, v)]
  | (k', v') :: t => if k' = k then (k, v) :: t else (k', v') :: assocSet k v t

/-- Dict delete: remove the first binding of `k` (Python `del d[k]`). -/
def assocErase (k : String) : List (String × α) → List (String × α)
  | [] => []
  | (k', v') :: t => if k' = k then t else (k', v') :: assocErase k t

/-- `d.get(k, default)`. -/
def pyGetD (d : PyDict) (k : String) (dflt : PyVal) : PyVal :=
  (assocGet k d).getD dflt

/-- Python truthiness. -/
def pyTruthy : PyVal → Bool
  | PyVal.pnone => false
  | PyVal.pbool b => b
  | PyVal.pnum q => decide (q ≠ 0)
  | PyVal.pstr s => !s.isEmpty
  | PyVal.plist l => !l.isEmpty
  | PyVal.pdict l => !l.isEmpty

/-- `x or fallback` for Python values (used by `capture` field defaults). -/
def pyOrElse (v fallback : PyVal) : PyVal :=
  if pyTruthy v then v else fallback

/-- `len(x)`: defined on str/list/dict, raises (`none`) otherwise. -/
def pyLen : PyVal → Option ℕ
  | PyVal.pstr s => some s.length
  | PyVal.plist l => some l.length
  | PyVal.pdict l => some l.length
  | _ => Option.none

/-- Numeric value of a big-endian digit string (`int("0042") = 42`). -/
def charsVal (l : List Char) : ℕ :=
  l.foldl (fun a c => a * 10 + (c.toNat - 48)) 0

/-- All characters are ASCII digits. -/
def allDigits (l : List Char) : Bool := l.all Char.isDigit

/-- Split a character list at the first dot. -/
def splitDot : List Char → List Char × Option (List Char)
  | [] => ([], Option.none)
  | c :: t =>
    if c = '.' then ([], some t)
    else
      let r := splitDot t
      (c :: r.1, r.2)

/-- Parse an unsigned decimal (`"7"`, `"0.85"`, `".5"`, `"5."`). -/
def parseUnsigned (l : List Char) : Option ℚ :=
  match splitDot l with
  | (ip, Option.none) =>
    if !ip.isEmpty && allDigits ip then some (charsVal ip) else Option.none
  | (ip, some fp) =>
    if (!ip.isEmpty || !fp.isEmpty) && allDigits ip && allDigits fp then
      some ((charsVal ip : ℚ) + (charsVal fp : ℚ) / ((10 : ℚ) ^ fp.length))
    else Option.none

/-- Python `float(x)`: numbers and bools convert, decimal strings parse,
anything else raises (`none`). -/
def pyFloat : PyVal → Option ℚ
  | PyVal.pnum q => some q
  | PyVal.pbool b => some (if b then 1 else 0)
  | PyVal.pstr s =>
    (match s.data with
     | [] => Option.none
     | c :: t =>
       if c = '-' then (parseUnsigned t).map (fun q => -q)
       else if c = '+' then parseUnsigned t
       else parseUnsigned (c :: t))
  | _ => Option.none

/-- Single-quote character, used by the Python `repr` rendering below. -/
def sq : String := String.mk [Char.ofNat 39]

mutual

/-- Python `repr(x)` as used inside container renderings. -/
def pyReprV : PyVal → String
  | PyVal.pnone => "None"
  | PyVal.pbool true => "True"
  | PyVal.pbool false => "False"
  | PyVal.pnum q => toString q
  | PyVal.pstr s => sq ++ s ++ sq
  | PyVal.plist l => "[" ++ pyBodyL l ++ "]"
  | PyVal.pdict l => "\x7b" ++ pyBodyD l ++ "\x7d"

/-- Comma-joined repr of list elements. -/
def pyBodyL : List PyVal → String
  | [] => ""
  | [x] => pyReprV x
  | x :: xs => pyReprV x ++ ", " ++ pyBodyL xs

/-- Comma-joined repr of dict entries. -/
def pyBodyD : List (String × PyVal) → String
  | [] => ""
  | [(k, v)] => sq ++ k ++ sq ++ ": " ++ pyReprV v
  | (k, v) :: xs => sq ++ k ++ sq ++ ": " ++ pyReprV v ++ ", " ++ pyBodyD xs

end

/-- Python `str(x)` (total; f-string interpolation never raises).  For a
string it is the string itself; containers and scalars render as their
`repr`, matching CPython for every shape the source serializes. -/
def pyStrV : PyVal → String
  | PyVal.pstr s => s
  | v => pyReprV v

/-- ASCII lower-casing of a string (Python `.lower()` restricted to ASCII,
which is all the source exercises). -/
def strLower (s : String) : String := String.mk (s.data.map Char.toLower)

/-- Does the first list start with the second? -/
def strLeads : List Char → List Char → Bool
  | _, [] => true
  | [], _ :: _ => false
  | a :: as, b :: bs => a == b && strLeads as bs

/-- Substring test on character lists (Python `needle in hay` on strings). -/
def subAt : List Char → List Char → Bool
  | [], n => n.isEmpty
  | c :: t, n => strLeads (c :: t) n || subAt t n

/-- Python substring containment `needle in hay`. -/
def strHas (hay needle : String) : Bool := subAt hay.data needle.data

/-! ## ID formatting (`f"WIKAI_{n:04d}"`, librarian.py `_generate_id`) -/

/-- The ASCII digit character for `d < 10`. -/
def digitChar : ℕ → Char
  | 0 => '0' | 1 => '1' | 2 => '2' | 3 => '3' | 4 => '4'
  | 5 => '5' | 6 => '6' | 7 => '7' | 8 => '8' | 9 => '9'
  | _ => '*'

/-- Fuel-driven big-endian decimal digits of a positive number. -/
def natDigitsAux : ℕ → ℕ → List Char
  | 0, _ => []
  | _ + 1, 0 => []
  | fuel + 1, n + 1 => natDigitsAux fuel ((n + 1) / 10) ++ [digitChar ((n + 1) % 10)]

/-- Big-endian decimal digit characters of a natural number. -/
def natChars (n : ℕ) : List Char :=
  if n = 0 then ['0'] else natDigitsAux n n

/-- Zero-pad a digit string on the left to width 4 (`%04d`). -/
def pad4 (l : List Char) : List Char :=
  List.replicate (4 - l.length) '0' ++ l

/-- `f"WIKAI_{n:04d}"`. -/
def formatWikaiId (n : ℕ) : String :=
  String.mk (['W', 'I', 'K', 'A', 'I', '_'] ++ pad4 (natChars n))

/-- Numeric suffix of a generated ID: `int(pattern_id.split("_")[1])`
specialised to the `WIKAI_NNNN` shape (drop the 6-character prefix). -/
def idSuffix (s : String) : ℕ := charsVal (s.data.drop 6)

/-! ## Slug (`librarian.py _slugify`) -/

/-- Is the (already lower-cased) character kept by the slug regex
`[^a-z0-9]`? -/
def slugOk (c : Char) : Bool :=
  ('a' ≤ c && c ≤ 'z') || ('0' ≤ c && c ≤ '9')

/-- `re.sub(r"[^a-z0-9]+", "_", text)`: each maximal run of excluded
characters becomes a single underscore.  The flag records whether the last
emitted character was that underscore. -/
def slugAux : Bool → List Char → List Char
  | _, [] => []
  | lastU, c :: t =>
    if slugOk c then c :: slugAux false t
    else if lastU then slugAux true t
    else '_' :: slugAux true t

/-- `_slugify`: lower-case, collapse non-alphanumeric runs to `_`, strip
leading/trailing `_`, truncate to 50 characters. -/
def slugify (s : String) : String :=
  let l := s.data.map Char.toLower
  let l := slugAux false l
  let l := l.dropWhile (fun c => c == '_')
  let l := (l.reverse.dropWhile (fun c => c == '_')).reverse
  String.mk (l.take 50)

/-! ## The Store (`librarian.py WIKAIPattern / WIKAILibrarian`) -/

/-- A captured pattern (the `WIKAIPattern` dataclass).  `metrics` is typed
`Dict[str, float]` in the source, modelled as a rational-valued association
list; every flow in the verified claims stores numeric metrics.  The field
`axm` embeds the source field named after the pattern's core one-sentence
truth (that source name cannot be used as a Lean identifier here). -/
structure WIKAIPattern where
  id : String
  title : String
  axm : PyVal
  origin : String := "unknown"
  timestamp : String := ""
  abstractV : PyVal := PyVal.pstr ""
  mech : PyVal := PyVal.pdict []
  reasoning : PyVal := PyVal.plist []
  metrics : List (String × ℚ) := []
  tags : PyVal := PyVal.plist []
  dataV : PyDict := []

/-- `pattern.stability_score`: `metrics.get("stability_score", 0.0)`. -/
def patStability (p : WIKAIPattern) : ℚ :=
  (assocGet "stability_score" p.metrics).getD 0

/-- Librarian state: the in-memory cache (insertion-ordered dict
`id -> pattern`), the auto-increment counter `_next_id`, and the pattern
files on disk (`filename -> serialized pattern`). -/
structure LibState where
  cache : List (String × WIKAIPattern) := []
  nextId : ℕ := 1
  files : List (String × WIKAIPattern) := []

/-- A librarian over an empty patterns directory (`_scan_patterns` loads
nothing, `_next_id = 1`). -/
def emptyLib : LibState := {}

/-- Arguments of one `capture` call (source defaults reproduced: `None`
becomes the empty structure through `x or {}` / `x or []` inside
`capture`). -/
structure CapArgs where
  title : String
  axm : PyVal := PyVal.pstr ""
  abstractV : PyVal := PyVal.pstr ""
  mech : PyVal := PyVal.pnone
  reasoning : PyVal := PyVal.pnone
  metrics : Option (List (String × ℚ)) := Option.none
  tags : PyVal := PyVal.pnone
  origin : String := "unknown"
  patternId : Option String := Option.none

/-- `WIKAILibrarian.capture`: allocate (or accept) the ID, build the
pattern with a fresh timestamp, write the JSON file, update the cache, and
return the ID.  Note: the source performs **no validation** of
`title`/`axm`. -/
def libCapture (st : LibState) (now : ℕ) (a : CapArgs) : String × LibState :=
  let pid := match a.patternId with
    | Option.none => formatWikaiId st.nextId
    | some p => p
  let nid := match a.patternId with
    | Option.none => st.nextId + 1
    | some _ => st.nextId
  let pat : WIKAIPattern :=
    { id := pid
      title := a.title
      axm := a.axm
      origin := a.origin
      timestamp := toString now ++ "Z"
      abstractV := a.abstractV
      mech := pyOrElse a.mech (PyVal.pdict [])
      reasoning := pyOrElse a.reasoning (PyVal.plist [])
      metrics := a.metrics.getD []
      tags := pyOrElse a.tags (PyVal.plist []) }
  let filename := pid ++ "_" ++ slugify a.title ++ ".json"
  (pid, { st with
            nextId := nid
            files := assocSet filename pat st.files
            cache := assocSet pid pat st.cache })

/-- `WIKAILibrarian.get`: cache lookup by ID. -/
def libGet (st : LibState) (pid : String) : Option WIKAIPattern :=
  assocGet pid st.cache

/-- A sequence of `capture` calls on one librarian, returning the IDs in
call order and the final state. -/
def captureSeq (st : LibState) (now : ℕ) : List CapArgs → List String × LibState
  | [] => ([], st)
  | a :: rest =>
    let r := libCapture st now a
    let rs := captureSeq r.2 now rest
    (r.1 :: rs.1, rs.2)

/-! ## Search (`librarian.py WIKAILibrarian.search`) -/

/-- The text searched by `search`:
`f"{pattern.title} {pattern.axiom} {pattern.abstract}"` — tags and
mechanism are **not** included by the source. -/
def searchText (p : WIKAIPattern) : String :=
  p.title ++ " " ++ pyStrV p.axm ++ " " ++ pyStrV p.abstractV

/-- One tag test `t in pattern.tags` (Python membership: list membership,
substring for strings, key membership for dicts, `TypeError` otherwise). -/
def tagMemb (t : String) : PyVal → Option Bool
  | PyVal.plist l =>
    some (l.any (fun v => match v with | PyVal.pstr s => s == t | _ => false))
  | PyVal.pstr s => some (strHas s t)
  | PyVal.pdict m => some (m.any (fun kv => kv.1 == t))
  | _ => Option.none

/-- `any(t in pattern.tags for t in tags)`. -/
def tagAny (ts : List String) (ptags : PyVal) : Option Bool :=
  match ts with
  | [] => some false
  | t :: rest =>
    match tagMemb t ptags with
    | Option.none => Option.none
    | some true => some true
    | some false => tagAny rest ptags

/-- The tag-filter step for one pattern: `if tags:` (None or empty list
skips the filter entirely). -/
def tagStep (tags : Option (List String)) (p : WIKAIPattern) : Option Bool :=
  match tags with
  | Option.none => some true
  | some ts => if ts.isEmpty then some true else tagAny ts p.tags

/-- The text-filter step: `if query:` (None or empty string matches all);
otherwise case-insensitive substring of `searchText`. -/
def textStep (q : Option String) (p : WIKAIPattern) : Bool :=
  match q with
  | Option.none => true
  | some s => if s.isEmpty then true else strHas (strLower (searchText p)) (strLower s)

/-- The `search` loop over `self._cache.values()`: apply the tag,
stability and text filters in source order, append matches, and break once
`len(results) >= limit`. -/
def searchLoop (q : Option String) (tags : Option (List String)) (minS : ℚ)
    (limit : ℕ) (acc : List WIKAIPattern) :
    List WIKAIPattern → Option (List WIKAIPattern)
  | [] => some acc.reverse
  | p :: rest =>
    match tagStep tags p with
    | Option.none => Option.none
    | some tagOk =>
      if !tagOk then searchLoop q tags minS limit acc rest
      else if patStability p < minS then searchLoop q tags minS limit acc rest
      else if !textStep q p then searchLoop q tags minS limit acc rest
      else
        let acc' := p :: acc
        if limit ≤ acc'.length then some acc'.reverse
        else searchLoop q tags minS limit acc' rest

/-- `WIKAILibrarian.search` (defaults: `query=None, tags=None,
min_stability=0.0, limit=100`). -/
def libSearch (st : LibState) (q : Option String) (tags : Option (List String))
    (minS : ℚ) (limit : ℕ) : Option (List WIKAIPattern) :=
  searchLoop q tags minS limit [] (st.cache.map Prod.snd)

/-- The combined filter predicate of `search` for one pattern (tag filter
AND stability filter AND text filter), with a raising tag test read as
`false` — used only under the hypothesis that every tag test is
non-raising. -/
def searchAdmits (q : Option String) (tags : Option (List String)) (minS : ℚ)
    (p : WIKAIPattern) : Bool :=
  ((tagStep tags p).getD false) && decide (minS ≤ patStability p) && textStep q p

/-- The text filter as the specification's sentence states it: a
case-insensitive substring match against the title, the core truth, the
abstract, **or the serialized form of the tags / mechanism**. -/
def specTextMatch (q : String) (p : WIKAIPattern) : Bool :=
  let ql := strLower q
  strHas (strLower p.title) ql || strHas (strLower (pyStrV p.axm)) ql ||
  strHas (strLower (pyStrV p.abstractV)) ql || strHas (strLower (pyStrV p.tags)) ql ||
  strHas (strLower (pyStrV p.mech)) ql

/-! ## Validation (`schema.py validate_pattern`) -/

/-- Result of `validate_pattern`. -/
structure ValidationResult where
  valid : Bool
  errors : List String
  warnings : List String

/-- `schema.validate_pattern`: advisory validation of a pattern dict.
Returns `none` where the Python code would raise (a `len()` or
`.startswith` on an unsized/non-string value).  Warning message text for
the ID-format and range warnings is abridged (no claim inspects it). -/
def validatePattern (d : PyDict) : Option ValidationResult :=
  let e1 := if pyTruthy (pyGetD d "id" PyVal.pnone) then [] else ["Missing required field: id"]
  let e2 := if pyTruthy (pyGetD d "title" PyVal.pnone) then [] else ["Missing required field: title"]
  let e3 := if pyTruthy (pyGetD d "axiom" PyVal.pnone) then [] else ["Missing required field: axiom"]
  let pidV := pyGetD d "id" (PyVal.pstr "")
  let w1opt : Option (List String) :=
    if pyTruthy pidV then
      match pidV with
      | PyVal.pstr s =>
        some (if strLeads s.data ['W', 'I', 'K', 'A', 'I', '_'] then []
              else ["ID " ++ s ++ " should start with WIKAI_"])
      | _ => Option.none
    else some []
  match w1opt with
  | Option.none => Option.none
  | some w1 =>
  match pyLen (pyGetD d "title" (PyVal.pstr "")) with
  | Option.none => Option.none
  | some tl =>
  let e4 := if 200 < tl then ["Title too long (" ++ toString tl ++ " chars, max 200)"] else []
  match pyLen (pyGetD d "axiom" (PyVal.pstr "")) with
  | Option.none => Option.none
  | some al =>
  let w2 := if 500 < al then ["Axiom is long (" ++ toString al ++ " chars, recommended max 500)"] else []
  let ew5 : List String × List String :=
    match pyGetD d "metrics" (PyVal.pdict []) with
    | PyVal.pdict m =>
      (match assocGet "stability_score" m with
       | some PyVal.pnone => ([], [])
       | some (PyVal.pnum qv) =>
         ([], if 0 ≤ qv ∧ qv ≤ 1 then [] else ["stability_score outside normal range"])
       | some (PyVal.pbool b) =>
         ([], if (0 : ℚ) ≤ (if b then 1 else 0) ∧ ((if b then 1 else 0) : ℚ) ≤ 1 then []
              else ["stability_score outside normal range"])
       | some _ => (["stability_score must be a number"], [])
       | Option.none => ([], []))
    | _ => ([], [])
  let e6 :=
    match pyGetD d "tags" (PyVal.plist []) with
    | PyVal.plist l =>
      if l.all (fun v => match v with | PyVal.pstr _ => true | _ => false) then []
      else ["All tags must be strings"]
    | _ => ["tags must be a list"]
  let errors := e1 ++ e2 ++ e3 ++ e4 ++ ew5.1 ++ e6
  some { valid := errors.isEmpty, errors := errors, warnings := w1 ++ w2 ++ ew5.2 }

/-! ## The Observer (`observer.py WIKAIObserver`) -/

/-- Observer statistics dict. -/
structure ObsStats where
  eventsObserved : ℕ := 0
  patternsCaptured : ℕ := 0
  candidatesPromoted : ℕ := 0
  candidatesRejected : ℕ := 0
deriving DecidableEq

/-- A candidate pattern awaiting stability confirmation. -/
structure Candidate where
  data : PyDict
  observations : ℕ
  maxStability : ℚ
  firstSeen : ℕ
  lastSeen : ℕ

/-- Observer state: the wrapped librarian, configuration, the bounded
event buffer (timestamp, event-type value, raw data), the candidate map,
the duplicate-suppression hash set, and the statistics. -/
structure ObsState where
  lib : LibState
  autoCapture : Bool
  threshold : ℚ
  systemName : String
  eventBuffer : List (ℕ × PyVal × PyDict) := []
  candidates : List (String × Candidate) := []
  capturedHashes : List String := []
  stats : ObsStats := {}

/-- `WIKAIObserver(...)` over an empty patterns directory. -/
def mkObserver (auto : Bool) (thr : ℚ) (name : String) : ObsState :=
  { lib := emptyLib, autoCapture := auto, threshold := thr, systemName := name }

/-- `deque(maxlen=1000)` append. -/
def dequePush (buf : List α) (x : α) : List α :=
  let b := buf ++ [x]
  if 1000 < b.length then b.drop (b.length - 1000) else b

/-- The fall-through block reading `metrics.stability` /
`metrics.stability_score` inside `_extract_stability`: `some r` when the
code returns (with `r` the possibly-raising conversion), `none` when it
falls through to the next proxy. -/
def stabFromMetrics (d : PyDict) : Option (Option ℚ) :=
  match pyGetD d "metrics" PyVal.pnone with
  | PyVal.pdict m =>
    (match assocGet "stability" m with
     | some v => some (pyFloat v)
     | Option.none =>
       match assocGet "stability_score" m with
       | some v => some (pyFloat v)
       | Option.none => Option.none)
  | _ => Option.none

/-- The analogous `components.coherence` / `components.stability` block. -/
def stabFromComponents (d : PyDict) : Option (Option ℚ) :=
  match pyGetD d "components" PyVal.pnone with
  | PyVal.pdict m =>
    (match assocGet "coherence" m with
     | some v => some (pyFloat v)
     | Option.none =>
       match assocGet "stability" m with
       | some v => some (pyFloat v)
       | Option.none => Option.none)
  | _ => Option.none

/-- `WIKAIObserver._extract_stability` (source structure: nested membership
tests with isinstance-guarded dict blocks, falling through on a miss). -/
def extractStability (d : PyDict) : Option ℚ :=
  match assocGet "stability" d with
  | some v => pyFloat v
  | Option.none =>
  match assocGet "stability_score" d with
  | some v => pyFloat v
  | Option.none =>
  match stabFromMetrics d with
  | some r => r
  | Option.none =>
  match assocGet "health_score" d with
  | some v => pyFloat v
  | Option.none =>
  match assocGet "coherence" d with
  | some v => pyFloat v
  | Option.none =>
  match stabFromComponents d with
  | some r => r
  | Option.none =>
  match assocGet "loss" d with
  | some v => (pyFloat v).map (fun q => 1 - q)
  | Option.none => some 0

/-- The ordered fallback chain exactly as the specification words it:
top-level `stability`; top-level `stability_score`; `metrics.stability`
then `metrics.stability_score`; `health_score`; `coherence`;
`components.coherence` then `components.stability`; finally `1 - loss`;
first key present wins; absence of all yields 0.0.  A dotted path is
present when the parent is a mapping containing the child key. -/
def dotPath (d : PyDict) (k1 k2 : String) : Option PyVal :=
  match assocGet k1 d with
  | some (PyVal.pdict m) => assocGet k2 m
  | _ => Option.none

/-- Specification-side restatement of the stability extraction chain (used
to check the source function against the specification's sentence). -/
def specExtractStability (d : PyDict) : Option ℚ :=
  match assocGet "stability" d with
  | some v => pyFloat v
  | Option.none =>
  match assocGet "stability_score" d with
  | some v => pyFloat v
  | Option.none =>
  match dotPath d "metrics" "stability" with
  | some v => pyFloat v
  | Option.none =>
  match dotPath d "metrics" "stability_score" with
  | some v => pyFloat v
  | Option.none =>
  match assocGet "health_score" d with
  | some v => pyFloat v
  | Option.none =>
  match assocGet "coherence" d with
  | some v => pyFloat v
  | Option.none =>
  match dotPath d "components" "coherence" with
  | some v => pyFloat v
  | Option.none =>
  match dotPath d "components" "stability" with
  | some v => pyFloat v
  | Option.none =>
  match assocGet "loss" d with
  | some v => (pyFloat v).map (fun q => 1 - q)
  | Option.none => some 0

/-- The `metrics.fitness_delta` / `metrics.fitness` block of
`_extract_fitness`. -/
def fitFromMetrics (d : PyDict) : Option (Option ℚ) :=
  match pyGetD d "metrics" PyVal.pnone with
  | PyVal.pdict m =>
    (match assocGet "fitness_delta" m with
     | some v => some (pyFloat v)
     | Option.none =>
       match assocGet "fitness" m with
       | some v => some (pyFloat v)
       | Option.none => Option.none)
  | _ => Option.none

/-- `WIKAIObserver._extract_fitness`. -/
def extractFitness (d : PyDict) : Option ℚ :=
  match assocGet "fitness_delta" d with
  | some v => pyFloat v
  | Option.none =>
  match assocGet "fitness" d with
  | some v => pyFloat v
  | Option.none =>
  match fitFromMetrics d with
  | some r => r
  | Option.none =>
  match dotPath d "components" "adaptability" with
  | some v => pyFloat v
  | Option.none => some 0

/-- The convergence keyword set of `_is_convergence_event`. -/
def convergenceKeywords : List String :=
  ["converge", "stable", "lock", "crystallize",
   "emerge", "synthesis", "equilibrium", "solution"]

/-- `WIKAIObserver._is_convergence_event`: lower-case the event type and
substring-match the keyword set; raises (`none`) when the event type is
not a string (`.lower()` on a non-string). -/
def isConvergenceOf : PyVal → Option Bool
  | PyVal.pstr s =>
    some (convergenceKeywords.any (fun kw => strHas (strLower s) kw))
  | _ => Option.none

/-- `WIKAIObserver._hash_pattern`: the truncated sha256 of
`f"{data.get('title', '')}:{data.get('axiom', '')}"`, modelled by the key
string itself (see the header note). -/
def hashPattern (d : PyDict) : String :=
  pyStrV (pyGetD d "title" (PyVal.pstr "")) ++ ":" ++ pyStrV (pyGetD d "axiom" (PyVal.pstr ""))

/-- Does `x[:50]` work on this value (str and list slice; other values
raise `TypeError`)? -/
def pySliceOk : PyVal → Bool
  | PyVal.pstr _ => true
  | PyVal.plist _ => true
  | _ => false

/-- `WIKAIObserver._capture_pattern`: drop if already captured, build the
metrics from the extracted stability and fitness, capture through the
librarian, record the hash and bump `patterns_captured`.  Raises (`none`)
when the fitness extraction raises or the title is not a string (the
`_slugify(title).lower()` inside `capture` would raise). -/
def capturePattern (st : ObsState) (now : ℕ) (d : PyDict) (s : ℚ) : Option ObsState :=
  let h := hashPattern d
  if st.capturedHashes.contains h then some st
  else
    match pyGetD d "title" (PyVal.pstr ("Pattern_" ++ toString now)) with
    | PyVal.pstr title =>
      (match extractFitness d with
       | Option.none => Option.none
       | some fit =>
         let r := libCapture st.lib now
           { title := title
             axm := pyGetD d "axiom" (pyGetD d "description" (PyVal.pstr ""))
             abstractV := pyGetD d "abstract" (PyVal.pstr "")
             mech := pyGetD d "mechanism" (PyVal.pdict [])
             reasoning := pyGetD d "reasoning_chain" (PyVal.plist [])
             metrics := some [("stability_score", s), ("fitness_delta", fit)]
             tags := pyGetD d "tags" (PyVal.plist [])
             origin := st.systemName }
         some { st with
                  lib := r.2
                  capturedHashes := h :: st.capturedHashes
                  stats := { st.stats with patternsCaptured := st.stats.patternsCaptured + 1 } })
    | _ => Option.none

/-- `WIKAIObserver._promote_candidate`: capture the candidate's data at
its running-maximum stability, delete it from the candidate map, bump
`candidates_promoted`. -/
def promoteCandidate (st : ObsState) (now : ℕ) (h : String) : Option ObsState :=
  match assocGet h st.candidates with
  | Option.none => some st
  | some c =>
    (capturePattern st now c.data c.maxStability).map (fun st' =>
      { st' with
          candidates := assocErase h st'.candidates
          stats := { st'.stats with candidatesPromoted := st'.stats.candidatesPromoted + 1 } })

/-- `WIKAIObserver._add_candidate`: upsert by hash; on a repeat
observation bump the count, raise the running maximum, refresh
`last_seen`, and promote once `observations >= 3` and the maximum has
crossed the threshold. -/
def addCandidate (st : ObsState) (now : ℕ) (d : PyDict) (s : ℚ) : Option ObsState :=
  let h := hashPattern d
  match assocGet h st.candidates with
  | some c =>
    let c' := { c with
                  observations := c.observations + 1
                  maxStability := max c.maxStability s
                  lastSeen := now }
    let st' := { st with candidates := assocSet h c' st.candidates }
    if 3 ≤ c'.observations ∧ st.threshold ≤ c'.maxStability then
      promoteCandidate st' now h
    else some st'
  | Option.none =>
    some { st with
             candidates := assocSet h
               { data := d, observations := 1, maxStability := s,
                 firstSeen := now, lastSeen := now } st.candidates }

/-- `WIKAIObserver._handle_convergence`: drop already-captured hashes;
at or above the threshold capture immediately when auto-capture is on;
below the threshold upsert a candidate. -/
def handleConvergence (st : ObsState) (now : ℕ) (d : PyDict) (s : ℚ) : Option ObsState :=
  let h := hashPattern d
  if st.capturedHashes.contains h then some st
  else if st.threshold ≤ s then
    (if st.autoCapture then capturePattern st now d s else some st)
  else addCandidate st now d s

/-- `WIKAIObserver.observe`: bump the counter, buffer the event, extract
the stability (may raise), slice the title for the debug line (may
raise), classify (may raise on a non-string event type) and dispatch
convergence events. -/
def observe (st : ObsState) (now : ℕ) (d : PyDict) : Option ObsState :=
  let st1 := { st with stats := { st.stats with eventsObserved := st.stats.eventsObserved + 1 } }
  let etype := pyGetD d "event" (PyVal.pstr "unknown")
  let st2 := { st1 with eventBuffer := dequePush st1.eventBuffer (now, etype, d) }
  match extractStability d with
  | Option.none => Option.none
  | some s =>
    if pySliceOk (pyGetD d "title" (PyVal.pstr "")) then
      match isConvergenceOf etype with
      | Option.none => Option.none
      | some b => if b then handleConvergence st2 now d s else some st2
    else Option.none

/-- `WIKAIObserver.force_capture`: capture regardless of thresholds and
without consulting or updating the duplicate-suppression hash set; the
metrics carry only the extracted stability. -/
def forceCapture (st : ObsState) (now : ℕ) (d : PyDict) : Option (String × ObsState) :=
  match extractStability d with
  | Option.none => Option.none
  | some s =>
    match pyGetD d "title" (PyVal.pstr "Manual Capture") with
    | PyVal.pstr title =>
      let r := libCapture st.lib now
        { title := title
          axm := pyGetD d "axiom" (PyVal.pstr "")
          abstractV := pyGetD d "abstract" (PyVal.pstr "")
          mech := pyGetD d "mechanism" (PyVal.pdict [])
          metrics := some [("stability_score", s)]
          tags := pyGetD d "tags" (PyVal.plist [])
          origin := st.systemName }
      some (r.1, { st with
                     lib := r.2
                     stats := { st.stats with patternsCaptured := st.stats.patternsCaptured + 1 } })
    | _ => Option.none

/-! ## Concrete scenario data used by the claims -/

/-- A convergence event with the given title, core truth and stability
(the shape of the specification's promotion scenarios). -/
def convEvent (title ax : String) (s : ℚ) : PyDict :=
  [("event", PyVal.pstr "convergence"), ("title", PyVal.pstr title),
   ("axiom", PyVal.pstr ax), ("stability", PyVal.pnum s)]

/-- A fresh observer with threshold 0.8 and auto-capture enabled. -/
def obs08 : ObsState := mkObserver true (mkRat 4 5) "hostsys"

/-- The first two observations of the repeated-promotion scenario
(stabilities 0.6 and 0.7 on the same (title, axiom)). -/
def c3AfterTwo : Option ObsState :=
  (observe obs08 0 (convEvent "T" "A" (mkRat 3 5))).bind
    (fun st => observe st 1 (convEvent "T" "A" (mkRat 7 10)))

/-- The repeated-promotion scenario after the third observation
(stability 0.85). -/
def c3AfterThree : Option ObsState :=
  c3AfterTwo.bind (fun st => observe st 2 (convEvent "T" "A" (mkRat 17 20)))

/-- A fresh observer whose state carries one sub-threshold candidate for
the hash "T:A", observed twice with running maximum 0.85 (reachable only
if the threshold was lowered meanwhile; `_add_candidate` accepts any such
state). -/
def c3WitnessState : ObsState :=
  { mkObserver true (mkRat 4 5) "hostsys" with
      candidates := [("T:A",
        { data := convEvent "T" "A" (mkRat 3 5), observations := 2,
          maxStability := mkRat 17 20, firstSeen := 0, lastSeen := 1 })] }

/-- The convergence event used by the duplicate-suppression and
force-capture scenarios (stability 0.9). -/
def c9Event : PyDict := convEvent "T" "A" (mkRat 9 10)

/-- The observer after `force_capture(c9Event)`. -/
def c9AfterForce : Option (String × ObsState) := forceCapture obs08 0 c9Event

/-- The observer after `force_capture(c9Event)` then `observe(c9Event)`. -/
def c9Final : Option ObsState := c9AfterForce.bind (fun r => observe r.2 1 c9Event)

/-- The observer state right after `_capture_pattern(c9Event, 0.9)` on a
fresh observer (used to exercise duplicate suppression). -/
def c4PreState : ObsState :=
  (capturePattern obs08 0 c9Event (mkRat 9 10)).getD obs08

/-- Capture arguments carrying an explicit caller-supplied `pattern_id`. -/
def dupArgs : CapArgs :=
  { title := "t", axm := PyVal.pstr "a", patternId := some "WIKAI_0001" }

/-- Capture arguments with only title and core truth (empty-field capture). -/
def c1Args (t ax : String) : CapArgs := { title := t, axm := PyVal.pstr ax }

/-- A stored pattern whose only occurrence of the query string "needle" is
in its tags. -/
def tagOnlyArgs : CapArgs :=
  { title := "t", axm := PyVal.pstr "a", tags := PyVal.plist [PyVal.pstr "needle"],
    metrics := some [("stability_score", 1)] }

/-- The one-pattern store built from `tagOnlyArgs`. -/
def tagOnlyStore : LibState := (libCapture emptyLib 0 tagOnlyArgs).2

/-- Round-trip capture arguments with every optional field supplied. -/
def c6Args : CapArgs :=
  { title := "Iron Wood", axm := PyVal.pstr "Ax", abstractV := PyVal.pstr "brief",
    mech := PyVal.pdict [("k", PyVal.pnum 1)],
    reasoning := PyVal.plist [PyVal.pstr "s1"],
    metrics := some [("stability_score", mkRat 49 50)],
    tags := PyVal.plist [PyVal.pstr "x"], origin := "sys" }

/-! ## Well-formed events (the shapes on which `observe` cannot raise) -/

/-- An absent value, or one `float()` accepts. -/
def floatOkOpt : Option PyVal → Bool
  | Option.none => true
  | some v => (pyFloat v).isSome

/-- Key `k` of `m` is absent or float-convertible. -/
def wfNumAt (m : List (String × PyVal)) (k : String) : Bool :=
  floatOkOpt (assocGet k m)

/-- Key `k` of `d` is absent or a string. -/
def wfStrAt (d : PyDict) (k : String) : Bool :=
  match assocGet k d with
  | Option.none => true
  | some (PyVal.pstr _) => true
  | some _ => false

/-- A well-formed event: every stability/fitness-like field that is present
holds a float-convertible value, and `title` / `event` (when present) are
strings.  On such events no conversion or string operation inside
`observe` raises. -/
def wfEvent (d : PyDict) : Bool :=
  wfNumAt d "stability" && wfNumAt d "stability_score" && wfNumAt d "health_score" &&
  wfNumAt d "coherence" && wfNumAt d "loss" && wfNumAt d "fitness_delta" &&
  wfNumAt d "fitness" &&
  (match assocGet "metrics" d with
   | some (PyVal.pdict m) =>
     wfNumAt m "stability" && wfNumAt m "stability_score" && wfNumAt m "fitness_delta" &&
     wfNumAt m "fitness"
   | _ => true) &&
  (match assocGet "components" d with
   | some (PyVal.pdict m) =>
     wfNumAt m "coherence" && wfNumAt m "stability" && wfNumAt m "adaptability"
   | _ => true) &&
  wfStrAt d "title" && wfStrAt d "event"

/-- Observer-state well-formedness: every buffered candidate's raw event
data is well-formed (true of every state reachable from well-formed
events). -/
def wfObserver (st : ObsState) : Bool :=
  st.candidates.all (fun kc => wfEvent kc.2.data)

/-! ## Association-list lemmas -/

theorem assocGet_set_self (k : String) (v : α) (l : List (String × α)) :
    assocGet k (assocSet k v l) = some v := by
  induction l with
  | nil => simp [assocGet, assocSet]
  | cons h t ih =>
    by_cases hk : h.1 = k
    · simp [assocSet, hk, assocGet]
    · simp [assocSet, hk, assocGet, ih]

theorem mem_of_assocGet {k : String} {v : α} {l : List (String × α)}
    (h : assocGet k l = some v) : (k, v) ∈ l := by
  induction l with
  | nil => simp [assocGet] at h
  | cons hd t ih =>
    by_cases hk : hd.1 = k
    · simp [assocGet, hk] at h
      cases hd
      simp_all
    · simp [assocGet, hk] at h
      exact List.mem_cons_of_mem _ (ih h)

theorem assocGet_eq_none_of_not_mem {k : String} {l : List (String × α)}
    (h : k ∉ l.map Prod.fst) : assocGet k l = Option.none := by
  induction l with
  | nil => rfl
  | cons hd t ih =>
    simp only [List.map_cons, List.mem_cons] at h
    push_neg at h
    have hne : ¬ hd.1 = k := fun e => h.1 e.symm
    simp [assocGet, hne, ih h.2]

theorem mem_assocSet {k : String} {v : α} {l : List (String × α)} {x : String × α}
    (h : x ∈ assocSet k v l) : x = (k, v) ∨ x ∈ l := by
  induction l with
  | nil => simp [assocSet] at h; exact Or.inl h
  | cons hd t ih =>
    by_cases hk : hd.1 = k
    · simp [assocSet, hk] at h
      rcases h with h | h
      · exact Or.inl h
      · exact Or.inr (List.mem_cons_of_mem _ h)
    · simp [assocSet, hk] at h
      rcases h with h | h
      · exact Or.inr (by simp [h])
      · rcases ih h with h' | h'
        · exact Or.inl h'
        · exact Or.inr (List.mem_cons_of_mem _ h')

theorem assocGet_erase_set_self {k : String} {v : α} {l : List (String × α)}
    (hnd : (l.map Prod.fst).Nodup) :
    assocGet k (assocErase k (assocSet k v l)) = (Option.none : Option α) := by
  induction l with
  | nil => simp [assocSet, assocErase, assocGet]
  | cons hd t ih =>
    by_cases hk : hd.1 = k
    · simp only [List.map_cons, List.nodup_cons] at hnd
      simp only [assocSet, hk, if_pos rfl, assocErase, if_pos rfl]
      exact assocGet_eq_none_of_not_mem (hk ▸ hnd.1)
    · simp only [List.map_cons, List.nodup_cons] at hnd
      simp [assocSet, hk, assocErase, assocGet, ih hnd.2]

/-! ## Decimal-digit and ID lemmas -/

theorem digitChar_val {d : ℕ} (h : d < 10) : (digitChar d).toNat - 48 = d := by
  interval_cases d <;> rfl

theorem charsVal_aux (fuel : ℕ) : ∀ n a, n ≤ fuel →
    List.foldl (fun a c => a * 10 + (c.toNat - 48)) a (natDigitsAux fuel n) =
      a * 10 ^ (natDigitsAux fuel n).length + n := by
  induction fuel with
  | zero =>
    intro n a h
    interval_cases n
    simp [natDigitsAux]
  | succ fuel ih =>
    intro n a h
    match n with
    | 0 => simp [natDigitsAux]
    | n + 1 =>
      have hq : (n + 1) / 10 ≤ fuel := by
        have := Nat.div_lt_self (Nat.succ_pos n) (by norm_num : 1 < 10)
        omega
      have hdm := Nat.div_add_mod (n + 1) 10
      rw [natDigitsAux, List.foldl_append, ih ((n + 1) / 10) a hq]
      simp only [List.foldl_cons, List.foldl_nil, List.length_append, List.length_cons,
        List.length_nil]
      rw [digitChar_val (Nat.mod_lt _ (by norm_num))]
      generalize (natDigitsAux fuel ((n + 1) / 10)).length = L
      calc (a * 10 ^ L + (n + 1) / 10) * 10 + (n + 1) % 10
          = a * (10 ^ L * 10) + (10 * ((n + 1) / 10) + (n + 1) % 10) := by ring
        _ = a * 10 ^ (L + (0 + 1)) + (n + 1) := by rw [hdm, pow_succ]

theorem charsVal_natChars (n : ℕ) : charsVal (natChars n) = n := by
  unfold natChars charsVal
  by_cases h : n = 0
  · simp [h]
  · rw [if_neg h, charsVal_aux n n 0 le_rfl]
    simp

theorem charsVal_replicate_zero (k : ℕ) (l : List Char) :
    charsVal (List.replicate k '0' ++ l) = charsVal l := by
  induction k with
  | zero => simp
  | succ k ih =>
    simpa [charsVal, List.replicate_succ] using ih

theorem idSuffix_format (n : ℕ) : idSuffix (formatWikaiId n) = n := by
  show charsVal (List.drop 6 (['W', 'I', 'K', 'A', 'I', '_'] ++ pad4 (natChars n))) = n
  have : List.drop 6 (['W', 'I', 'K', 'A', 'I', '_'] ++ pad4 (natChars n)) =
      pad4 (natChars n) := rfl
  rw [this, pad4, charsVal_replicate_zero, charsVal_natChars]

theorem formatWikaiId_inj {m n : ℕ} (h : formatWikaiId m = formatWikaiId n) : m = n := by
  have := congrArg idSuffix h
  rwa [idSuffix_format, idSuffix_format] at this

/-! ## Capture-sequence lemmas -/

theorem libCapture_auto_id {st : LibState} {now : ℕ} {a : CapArgs}
    (h : a.patternId = Option.none) :
    (libCapture st now a).1 = formatWikaiId st.nextId ∧
      (libCapture st now a).2.nextId = st.nextId + 1 := by
  simp [libCapture, h]

theorem captureSeq_ids (now : ℕ) : ∀ (args : List CapArgs) (st : LibState),
    (∀ a ∈ args, a.patternId = Option.none) →
    (captureSeq st now args).1 =
      (List.range args.length).map (fun i => formatWikaiId (st.nextId + i)) := by
  intro args
  induction args with
  | nil => intro st _; rfl
  | cons a rest ih =>
    intro st h
    have ha := h a (List.mem_cons_self _ _)
    have hid := @libCapture_auto_id st now a ha
    have hrest := ih (libCapture st now a).2 (fun x hx => h x (List.mem_cons_of_mem _ hx))
    show (libCapture st now a).1 :: (captureSeq (libCapture st now a).2 now rest).1 = _
    rw [hid.1, hrest, hid.2, List.length_cons, List.range_succ_eq_map, List.map_cons,
      List.map_map]
    congr 1
    apply List.map_congr_left
    intro i _
    show formatWikaiId (st.nextId + 1 + i) = formatWikaiId (st.nextId + i.succ)
    congr 1
    omega

/-! ## Search-loop characterisation -/

theorem searchLoop_eq (q : Option String) (tags : Option (List String)) (minS : ℚ)
    (limit : ℕ) : ∀ (l acc : List WIKAIPattern),
    (∀ p ∈ l, (tagStep tags p).isSome) → acc.length < limit →
    searchLoop q tags minS limit acc l =
      some (acc.reverse ++ (l.filter (searchAdmits q tags minS)).take (limit - acc.length)) := by
  intro l
  induction l with
  | nil => intro acc _ _; simp [searchLoop]
  | cons p rest ih =>
    intro acc hWF hlen
    obtain ⟨tb, htb⟩ := Option.isSome_iff_exists.mp (hWF p (List.mem_cons_self _ _))
    have hWFr : ∀ x ∈ rest, (tagStep tags x).isSome :=
      fun x hx => hWF x (List.mem_cons_of_mem _ hx)
    cases tb with
    | false =>
      have hadm : searchAdmits q tags minS p = false := by
        rw [searchAdmits, htb]
        simp
      have hadm' : ¬ (searchAdmits q tags minS p = true) := by
        rw [hadm]; exact Bool.false_ne_true
      simp only [searchLoop, htb, Bool.not_false, if_true]
      rw [ih acc hWFr hlen, List.filter_cons_of_neg hadm']
    | true =>
      by_cases h2 : patStability p < minS
      · have hadm' : ¬ (searchAdmits q tags minS p = true) := by
          rw [searchAdmits, htb]
          simp [not_le.mpr h2]
        simp only [searchLoop, htb, Bool.not_true, Bool.false_eq_true, if_false, if_pos h2]
        rw [ih acc hWFr hlen, List.filter_cons_of_neg hadm']
      · cases h3 : textStep q p with
        | false =>
          have hadm' : ¬ (searchAdmits q tags minS p = true) := by
            rw [searchAdmits, h3]
            simp
          simp only [searchLoop, htb, Bool.not_true, Bool.false_eq_true, if_false,
            if_neg h2, h3, Bool.not_false, if_true]
          rw [ih acc hWFr hlen, List.filter_cons_of_neg hadm']
        | true =>
          have hadm : searchAdmits q tags minS p = true := by
            rw [searchAdmits, htb, h3]
            simp [not_lt.mp h2]
          by_cases h4 : limit ≤ (p :: acc).length
          · have hlim : limit = acc.length + 1 := by
              simp only [List.length_cons] at h4
              omega
            simp only [searchLoop, htb, Bool.not_true, Bool.false_eq_true, if_false,
              if_neg h2, h3, Bool.not_true, Bool.false_eq_true, if_false, if_pos h4]
            rw [List.filter_cons_of_pos hadm, hlim]
            simp
          · push_neg at h4
            simp only [searchLoop, htb, Bool.not_true, Bool.false_eq_true, if_false,
              if_neg h2, h3, if_neg (not_le.mpr h4)]
            rw [ih (p :: acc) hWFr h4, List.filter_cons_of_pos hadm]
            have harith : limit - acc.length = (limit - (p :: acc).length) + 1 := by
              simp only [List.length_cons]
              omega
            rw [harith, List.take_succ_cons]
            simp

theorem libSearch_eq (st : LibState) (q : Option String) (tags : Option (List String))
    (minS : ℚ) (limit : ℕ)
    (hWF : ∀ p ∈ st.cache.map Prod.snd, (tagStep tags p).isSome) (hl : 1 ≤ limit) :
    libSearch st q tags minS limit =
      some (((st.cache.map Prod.snd).filter (searchAdmits q tags minS)).take limit) := by
  unfold libSearch
  rw [searchLoop_eq q tags minS limit _ [] hWF (by simpa using hl)]
  simp

/-! ## Stability extraction: source structure vs specification chain -/

theorem extractStability_eq_spec (d : PyDict) :
    extractStability d = specExtractStability d := by
  unfold extractStability specExtractStability stabFromMetrics stabFromComponents dotPath pyGetD
  cases h1 : assocGet "stability" d
  case some => rfl
  case none =>
  cases h2 : assocGet "stability_score" d
  case some => rfl
  case none =>
  cases h3 : assocGet "metrics" d <;>
    [skip; rename_i vm] <;>
    [skip; cases vm] <;>
    simp only [Option.getD] <;>
    first
    | (rename_i m
       cases h4 : assocGet "stability" m
       case some => rfl
       case none =>
       cases h5 : assocGet "stability_score" m
       case some => rfl
       case none =>
       cases h6 : assocGet "health_score" d
       case some => rfl
       case none =>
       cases h7 : assocGet "coherence" d
       case some => rfl
       case none =>
       cases h8 : assocGet "components" d <;>
         [skip; rename_i vc] <;>
         [skip; cases vc] <;>
         simp only [Option.getD] <;>
         first
         | rfl
         | (rename_i m2
            cases h9 : assocGet "coherence" m2
            case some => rfl
            case none =>
            cases h10 : assocGet "stability" m2 <;> rfl))
    | (cases h6 : assocGet "health_score" d
       case some => rfl
       case none =>
       cases h7 : assocGet "coherence" d
       case some => rfl
       case none =>
       cases h8 : assocGet "components" d <;>
         [skip; rename_i vc] <;>
         [skip; cases vc] <;>
         simp only [Option.getD] <;>
         first
         | rfl
         | (rename_i m2
            cases h9 : assocGet "coherence" m2
            case some => rfl
            case none =>
            cases h10 : assocGet "stability" m2 <;> rfl))

/-! ## Capture-pattern characterisation -/

theorem capturePattern_out {st : ObsState} {now : ℕ} {d : PyDict} {s : ℚ}
    {st2 : ObsState} (h : capturePattern st now d s = some st2) :
    st2.candidates = st.candidates ∧
    st2.capturedHashes.contains (hashPattern d) = true ∧
    (st.capturedHashes.contains (hashPattern d) = true → st2 = st) ∧
    (st.capturedHashes.contains (hashPattern d) = false →
      st2.stats.patternsCaptured = st.stats.patternsCaptured + 1) := by
  cases hcon : st.capturedHashes.contains (hashPattern d)
  · simp only [capturePattern, hcon, Bool.false_eq_true, if_false] at h
    cases htv : pyGetD d "title" (PyVal.pstr ("Pattern_" ++ toString now)) <;>
      rw [htv] at h
    case pstr =>
      cases hf : extractFitness d <;> rw [hf] at h
      · exact absurd h (by simp)
      · injection h with h2
        subst h2
        refine ⟨rfl, ?_, ?_, fun _ => rfl⟩
        · simp [List.contains_cons]
        · intro hc
          exact absurd hc (by simp)
    all_goals exact absurd h (by simp)
  · simp only [capturePattern, hcon, if_true] at h
    injection h with h2
    subst h2
    exact ⟨rfl, hcon, fun _ => rfl, fun hc => absurd hc (by simp)⟩

/-! ## Well-formedness gives raise-freedom -/

theorem floatOk_get {m : List (String × PyVal)} {k : String} {v : PyVal}
    (hwf : wfNumAt m k = true) (hg : assocGet k m = some v) :
    (pyFloat v).isSome = true := by
  unfold wfNumAt at hwf
  rw [hg] at hwf
  exact hwf

theorem wfEvent_parts {d : PyDict} (h : wfEvent d = true) :
    wfNumAt d "stability" = true ∧ wfNumAt d "stability_score" = true ∧
    wfNumAt d "health_score" = true ∧ wfNumAt d "coherence" = true ∧
    wfNumAt d "loss" = true ∧ wfNumAt d "fitness_delta" = true ∧
    wfNumAt d "fitness" = true ∧
    (∀ m, assocGet "metrics" d = some (PyVal.pdict m) →
      wfNumAt m "stability" = true ∧ wfNumAt m "stability_score" = true ∧
      wfNumAt m "fitness_delta" = true ∧ wfNumAt m "fitness" = true) ∧
    (∀ m, assocGet "components" d = some (PyVal.pdict m) →
      wfNumAt m "coherence" = true ∧ wfNumAt m "stability" = true ∧
      wfNumAt m "adaptability" = true) ∧
    wfStrAt d "title" = true ∧ wfStrAt d "event" = true := by
  simp only [wfEvent, Bool.and_eq_true] at h
  obtain ⟨⟨⟨⟨⟨⟨⟨⟨⟨⟨h1, h2⟩, h3⟩, h4⟩, h5⟩, h6⟩, h7⟩, h8⟩, h9⟩, h10⟩, h11⟩ := h
  refine ⟨h1, h2, h3, h4, h5, h6, h7, ?_, ?_, h10, h11⟩
  · intro m hm
    rw [hm] at h8
    simp only [Bool.and_eq_true] at h8
    exact ⟨h8.1.1.1, h8.1.1.2, h8.1.2, h8.2⟩
  · intro m hm
    rw [hm] at h9
    simp only [Bool.and_eq_true] at h9
    exact ⟨h9.1.1, h9.1.2, h9.2⟩

theorem extractStability_isSome {d : PyDict} (h : wfEvent d = true) :
    (extractStability d).isSome = true := by
  obtain ⟨h1, h2, h3, h4, h5, _, _, h8, h9, _, _⟩ := wfEvent_parts h
  unfold extractStability stabFromMetrics stabFromComponents pyGetD
  cases g1 : assocGet "stability" d
  case some => exact floatOk_get h1 g1
  case none =>
  cases g2 : assocGet "stability_score" d
  case some => exact floatOk_get h2 g2
  case none =>
  cases g3 : assocGet "metrics" d <;> [skip; rename_i vm] <;> [skip; cases vm] <;>
    simp only [Option.getD] <;>
    first
    | (rename_i m
       have hm := h8 m (by assumption)
       cases g4 : assocGet "stability" m
       case some => exact floatOk_get hm.1 g4
       case none =>
       cases g5 : assocGet "stability_score" m
       case some => exact floatOk_get hm.2.1 g5
       case none =>
       cases g6 : assocGet "health_score" d
       case some => exact floatOk_get h3 g6
       case none =>
       cases g7 : assocGet "coherence" d
       case some => exact floatOk_get h4 g7
       case none =>
       cases g8 : assocGet "components" d <;> [skip; rename_i vc] <;> [skip; cases vc] <;>
         simp only [Option.getD] <;>
         first
         | (rename_i m2
            have hc2 := h9 m2 (by assumption)
            cases g9 : assocGet "coherence" m2
            case some => exact floatOk_get hc2.1 g9
            case none =>
            cases g10 : assocGet "stability" m2
            case some => exact floatOk_get hc2.2.1 g10
            case none =>
            cases g11 : assocGet "loss" d
            case some => simpa [Option.isSome_map] using floatOk_get h5 g11
            case none => rfl)
         | (cases g11 : assocGet "loss" d
            case some => simpa [Option.isSome_map] using floatOk_get h5 g11
            case none => rfl))
    | (cases g6 : assocGet "health_score" d
       case some => exact floatOk_get h3 g6
       case none =>
       cases g7 : assocGet "coherence" d
       case some => exact floatOk_get h4 g7
       case none =>
       cases g8 : assocGet "components" d <;> [skip; rename_i vc] <;> [skip; cases vc] <;>
         simp only [Option.getD] <;>
         first
         | (rename_i m2
            have hc2 := h9 m2 (by assumption)
            cases g9 : assocGet "coherence" m2
            case some => exact floatOk_get hc2.1 g9
            case none =>
            cases g10 : assocGet "stability" m2
            case some => exact floatOk_get hc2.2.1 g10
            case none =>
            cases g11 : assocGet "loss" d
            case some => simpa [Option.isSome_map] using floatOk_get h5 g11
            case none => rfl)
         | (cases g11 : assocGet "loss" d
            case some => simpa [Option.isSome_map] using floatOk_get h5 g11
            case none => rfl))

theorem extractFitness_isSome {d : PyDict} (h : wfEvent d = true) :
    (extractFitness d).isSome = true := by
  obtain ⟨_, _, _, _, _, h6, h7, h8, h9, _, _⟩ := wfEvent_parts h
  have hcomp : ∀ v, dotPath d "components" "adaptability" = some v →
      (pyFloat v).isSome = true := by
    intro v hv
    unfold dotPath at hv
    cases gc : assocGet "components" d <;> rw [gc] at hv
    · exact absurd hv (by simp)
    · rename_i vc
      cases vc
      case pdict m => exact floatOk_get (h9 m gc).2.2 hv
      all_goals simp at hv
  unfold extractFitness fitFromMetrics pyGetD
  cases g1 : assocGet "fitness_delta" d
  case some => exact floatOk_get h6 g1
  case none =>
  cases g2 : assocGet "fitness" d
  case some => exact floatOk_get h7 g2
  case none =>
  cases g3 : assocGet "metrics" d <;> [skip; rename_i vm] <;> [skip; cases vm] <;>
    simp only [Option.getD] <;>
    first
    | (rename_i m
       have hm := h8 m (by assumption)
       cases g4 : assocGet "fitness_delta" m
       case some => exact floatOk_get hm.2.2.1 g4
       case none =>
       cases g5 : assocGet "fitness" m
       case some => exact floatOk_get hm.2.2.2 g5
       case none =>
       cases g8 : dotPath d "components" "adaptability"
       case some => exact hcomp _ g8
       case none => rfl)
    | (cases g8 : dotPath d "components" "adaptability"
       case some => exact hcomp _ g8
       case none => rfl)

theorem wfTitle_str {d : PyDict} (h : wfStrAt d "title" = true) (dflt : String) :
    ∃ t, pyGetD d "title" (PyVal.pstr dflt) = PyVal.pstr t := by
  unfold wfStrAt at h
  unfold pyGetD
  cases g : assocGet "title" d
  · exact ⟨dflt, rfl⟩
  · rename_i v
    rw [g] at h
    cases v
    case pstr s => exact ⟨s, rfl⟩
    all_goals simp at h

theorem capturePattern_isSome {st : ObsState} {now : ℕ} {d : PyDict} {s : ℚ}
    (h : wfEvent d = true) : (capturePattern st now d s).isSome = true := by
  obtain ⟨_, _, _, _, _, _, _, _, _, h10, _⟩ := wfEvent_parts h
  cases hcon : st.capturedHashes.contains (hashPattern d)
  · obtain ⟨t, ht⟩ := wfTitle_str h10 ("Pattern_" ++ toString now)
    obtain ⟨fit, hfit⟩ := Option.isSome_iff_exists.mp (extractFitness_isSome h)
    simp only [capturePattern, hcon, Bool.false_eq_true, if_false, ht, hfit,
      Option.isSome_some]
  · simp only [capturePattern, hcon, if_true, Option.isSome_some]

theorem promoteCandidate_isSome {st : ObsState} {now : ℕ} {h0 : String}
    (hwf : wfObserver st = true) : (promoteCandidate st now h0).isSome = true := by
  unfold promoteCandidate
  cases g : assocGet h0 st.candidates
  · simp
  · rename_i c
    have hcd : wfEvent c.data = true := by
      rw [wfObserver, List.all_eq_true] at hwf
      exact hwf (h0, c) (mem_of_assocGet g)
    simpa [Option.isSome_map] using
      @capturePattern_isSome st now c.data c.maxStability hcd

theorem addCandidate_isSome {st : ObsState} {now : ℕ} {d : PyDict} {s : ℚ}
    (hd : wfEvent d = true) (hwf : wfObserver st = true) :
    (addCandidate st now d s).isSome = true := by
  simp only [addCandidate]
  cases g : assocGet (hashPattern d) st.candidates
  · simp
  · rename_i c
    have hcd : wfEvent c.data = true := by
      rw [wfObserver, List.all_eq_true] at hwf
      exact hwf (hashPattern d, c) (mem_of_assocGet g)
    split
    · rename_i c2 heq
      injection heq with heq
      subst heq
      split
      · apply promoteCandidate_isSome
        rw [wfObserver, List.all_eq_true]
        intro x hx
        rcases mem_assocSet hx with rfl | hx'
        · exact hcd
        · rw [wfObserver, List.all_eq_true] at hwf
          exact hwf x hx'
      · simp
    · rename_i heq
      exact absurd heq (by simp)

theorem handleConvergence_isSome {st : ObsState} {now : ℕ} {d : PyDict} {s : ℚ}
    (hd : wfEvent d = true) (hwf : wfObserver st = true) :
    (handleConvergence st now d s).isSome = true := by
  simp only [handleConvergence]
  cases hcon : st.capturedHashes.contains (hashPattern d)
  · simp only [Bool.false_eq_true, if_false]
    split
    · split
      · exact capturePattern_isSome hd
      · simp
    · exact addCandidate_isSome hd hwf
  · simp

theorem wfEvent_str {d : PyDict} (h : wfStrAt d "event" = true) :
    ∃ t, pyGetD d "event" (PyVal.pstr "unknown") = PyVal.pstr t := by
  unfold wfStrAt at h
  unfold pyGetD
  cases g : assocGet "event" d
  · exact ⟨"unknown", rfl⟩
  · rename_i v
    rw [g] at h
    cases v
    case pstr s => exact ⟨s, rfl⟩
    all_goals simp at h

theorem observe_wf_isSome {st : ObsState} {now : ℕ} {d : PyDict}
    (hd : wfEvent d = true) (hwf : wfObserver st = true) :
    (observe st now d).isSome = true := by
  obtain ⟨_, _, _, _, _, _, _, _, _, h10, h11⟩ := wfEvent_parts hd
  obtain ⟨s, hs⟩ := Option.isSome_iff_exists.mp (extractStability_isSome hd)
  obtain ⟨t, ht⟩ := wfTitle_str h10 ""
  obtain ⟨e, he⟩ := wfEvent_str h11
  have hsl : pySliceOk (pyGetD d "title" (PyVal.pstr "")) = true := by
    rw [ht]; rfl
  simp only [observe]
  rw [hs, he]
  simp only [hsl, if_true, isConvergenceOf]
  split
  · exact handleConvergence_isSome hd hwf
  · simp


/-! ## Observe frame lemmas -/

theorem observe_conv_eq {st : ObsState} {now : ℕ} {d : PyDict} {s : ℚ} {e : String}
    (hs : extractStability d = some s)
    (hsl : pySliceOk (pyGetD d "title" (PyVal.pstr "")) = true)
    (he : pyGetD d "event" (PyVal.pstr "unknown") = PyVal.pstr e)
    (hconv : convergenceKeywords.any (fun kw => strHas (strLower e) kw) = true) :
    observe st now d = handleConvergence
      { st with stats := { st.stats with eventsObserved := st.stats.eventsObserved + 1 },
                eventBuffer := dequePush st.eventBuffer (now, PyVal.pstr e, d) } now d s := by
  simp only [observe]
  rw [hs, he]
  simp only [hsl, if_true, isConvergenceOf, hconv, if_true]

theorem handleConvergence_dropped {st : ObsState} {now : ℕ} {d : PyDict} {s : ℚ}
    (hh : st.capturedHashes.contains (hashPattern d) = true) :
    handleConvergence st now d s = some st := by
  simp only [handleConvergence, hh, if_true]

theorem handleConvergence_auto_off {st : ObsState} {now : ℕ} {d : PyDict} {s : ℚ}
    (hauto : st.autoCapture = false) (hth : st.threshold ≤ s) :
    handleConvergence st now d s = some st := by
  simp only [handleConvergence]
  by_cases hcon : st.capturedHashes.contains (hashPattern d) = true
  · rw [if_pos hcon]
  · rw [if_neg hcon, if_pos hth, hauto]
    simp

/-! ## Capture field defaults -/

theorem pyOrElse_dict (xs : List (String × PyVal)) :
    pyOrElse (PyVal.pdict xs) (PyVal.pdict []) = PyVal.pdict xs := by
  cases xs <;> simp [pyOrElse, pyTruthy]

theorem pyOrElse_list (xs : List PyVal) :
    pyOrElse (PyVal.plist xs) (PyVal.plist []) = PyVal.plist xs := by
  cases xs <;> simp [pyOrElse, pyTruthy]


/-! ## Claims -/

/-- Claim C1, counterexample: a `capture` call with an empty core-truth
field does not fail — it returns the id WIKAI_0001, writes one pattern
file, and adds one cache entry, so the claim that such calls raise
`ValidationError` with no file written is false on the code. -/
theorem c1_counterexample :
    (libCapture emptyLib 0 (c1Args "x" "")).1 = "WIKAI_0001" ∧
    (libCapture emptyLib 0 (c1Args "x" "")).2.files.length = 1 ∧
    (libCapture emptyLib 0 (c1Args "x" "")).2.cache.length = 1 :=
  ⟨by decide, by decide, by decide⟩

/-- Claim C1, amended: `capture` performs no validation at all — for any
store state and any title/axiom with at least one of them empty, the call
succeeds, stores the entry in the cache, and writes its pattern file; the
advisory `validate_pattern` marks a dict whose title or axiom is missing
or empty as invalid, but `capture` never invokes it. -/
theorem c1_capture_accepts_empty (st : LibState) (now : ℕ) (t ax : String)
    (h : t = "" ∨ ax = "") :
    (∃ p, libGet (libCapture st now (c1Args t ax)).2 (libCapture st now (c1Args t ax)).1 =
        some p ∧
      assocGet ((libCapture st now (c1Args t ax)).1 ++ "_" ++ slugify t ++ ".json")
        (libCapture st now (c1Args t ax)).2.files = some p ∧
      p.title = t ∧ p.axm = PyVal.pstr ax) ∧
    (validatePattern [("title", PyVal.pstr t), ("axiom", PyVal.pstr ax)]).map
      ValidationResult.valid = some false := by
  constructor
  · simp only [libGet, libCapture, c1Args]
    exact ⟨_, assocGet_set_self _ _ _, assocGet_set_self _ _ _, rfl, rfl⟩
  · simp [validatePattern, pyGetD, assocGet, pyTruthy]
    rw [if_neg (by decide : ¬ ("".isEmpty = false))]
    exact ⟨_, rfl, rfl⟩

/-- Claim C1, witness for the amended theorem at title "x", empty axiom. -/
theorem c1_witness :
    (∃ p, libGet (libCapture emptyLib 0 (c1Args "x" "")).2
        (libCapture emptyLib 0 (c1Args "x" "")).1 = some p ∧
      assocGet ((libCapture emptyLib 0 (c1Args "x" "")).1 ++ "_" ++ slugify "x" ++ ".json")
        (libCapture emptyLib 0 (c1Args "x" "")).2.files = some p ∧
      p.title = "x" ∧ p.axm = PyVal.pstr "") ∧
    (validatePattern [("title", PyVal.pstr "x"), ("axiom", PyVal.pstr "")]).map
      ValidationResult.valid = some false :=
  c1_capture_accepts_empty emptyLib 0 "x" "" (Or.inr rfl)

/-- Claim C2, counterexample: `observe` raises on the event
`{"stability": None}` — `float(None)` inside `_extract_stability` throws,
so the claim that observe never raises on malformed shapes is false. -/
theorem c2_counterexample :
    (observe obs08 0 [("stability", PyVal.pnone)]).isSome = false := by decide

/-- Claim C2, amended: `observe` never raises on well-formed events
(every present stability/fitness-like field float-convertible, title and
event fields strings when present), over any observer state whose buffered
candidates also came from well-formed events; absent keys degrade to
defaults rather than failing.  A present non-convertible value (e.g.
`None`) raises. -/
theorem c2_observe_total (st : ObsState) (now : ℕ) (d : PyDict)
    (hd : wfEvent d = true) (hwf : wfObserver st = true) :
    (observe st now d).isSome = true :=
  observe_wf_isSome hd hwf

/-- Claim C2, witness: a well-formed event on the fresh observer. -/
theorem c2_witness :
    wfEvent [("stability", PyVal.pnum (mkRat 17 20))] = true ∧
    wfObserver obs08 = true ∧
    (observe obs08 3 [("stability", PyVal.pnum (mkRat 17 20))]).isSome = true :=
  ⟨by decide, by decide, c2_observe_total obs08 3 _ (by decide) (by decide)⟩

/-- Claim C3: three observations of the same (title, axiom) at stabilities
0.6, 0.7, 0.85 on a fresh threshold-0.8 auto-capturing observer produce no
Store entry after two calls and exactly one entry after the third, with
stability_score 0.85; and in `_add_candidate`, a candidate reaching at
least 3 observations whose running maximum has crossed the threshold is
promoted via capture (its hash recorded, `patterns_captured` bumped when
new) and removed from the candidate map. -/
theorem c3_repeated_promotion (st : ObsState) (now : ℕ) (d : PyDict) (s : ℚ)
    (c : Candidate)
    (hnd : (st.candidates.map Prod.fst).Nodup)
    (hc : assocGet (hashPattern d) st.candidates = some c)
    (hwfc : wfEvent c.data = true)
    (hhash : hashPattern c.data = hashPattern d)
    (hobs : 3 ≤ c.observations + 1)
    (hmax : st.threshold ≤ max c.maxStability s) :
    ((c3AfterTwo.map fun st0 => st0.lib.cache.length) = some 0 ∧
     (c3AfterThree.map fun st0 =>
        (st0.lib.cache.map Prod.snd).map (fun p => (p.title, patStability p))) =
       some [("T", mkRat 17 20)]) ∧
    (addCandidate st now d s).isSome = true ∧
    (addCandidate st now d s).all (fun st2 =>
      (assocGet (hashPattern d) st2.candidates).isNone &&
      st2.capturedHashes.contains (hashPattern d) &&
      (st.capturedHashes.contains (hashPattern d) ||
        st2.stats.patternsCaptured == st.stats.patternsCaptured + 1)) = true := by
  have hcs : (capturePattern
      { st with
          candidates :=
            assocSet (hashPattern d)
              { c with
                  observations := c.observations + 1
                  maxStability := max c.maxStability s
                  lastSeen := now }
              st.candidates }
      now c.data (max c.maxStability s)).isSome = true :=
    capturePattern_isSome hwfc
  obtain ⟨st3, hst3⟩ := Option.isSome_iff_exists.mp hcs
  have hout := capturePattern_out hst3
  have key : ∃ st2, addCandidate st now d s = some st2 ∧
      assocGet (hashPattern d) st2.candidates = (Option.none : Option Candidate) ∧
      st2.capturedHashes.contains (hashPattern d) = true ∧
      (st.capturedHashes.contains (hashPattern d) = false →
        st2.stats.patternsCaptured = st.stats.patternsCaptured + 1) := by
    simp only [addCandidate, hc]
    rw [if_pos ⟨hobs, hmax⟩]
    simp only [promoteCandidate, assocGet_set_self]
    rw [hst3]
    refine ⟨_, rfl, ?_, ?_, ?_⟩
    · show assocGet (hashPattern d) (assocErase (hashPattern d) st3.candidates) = _
      rw [hout.1]
      exact assocGet_erase_set_self hnd
    · show st3.capturedHashes.contains (hashPattern d) = true
      rw [← hhash]
      exact hout.2.1
    · intro hpre
      show st3.stats.patternsCaptured = st.stats.patternsCaptured + 1
      have := hout.2.2.2 (by rw [hhash]; exact hpre)
      exact this
  obtain ⟨st2, he, h1, h2, h3⟩ := key
  refine ⟨⟨by decide, by decide⟩, ?_, ?_⟩
  · rw [he]; rfl
  · rw [he]
    have h2m : hashPattern d ∈ st2.capturedHashes := by simpa using h2
    cases hpre : st.capturedHashes.contains (hashPattern d)
    · simp [Option.all, h1, h2m, h3 hpre]
    · simp [Option.all, h1, h2m, hpre]

/-- Claim C3, witness: the concrete scenario plus `_add_candidate` on a
state holding a twice-observed candidate with running maximum 0.85. -/
theorem c3_witness :
    ((c3AfterTwo.map fun st0 => st0.lib.cache.length) = some 0 ∧
     (c3AfterThree.map fun st0 =>
        (st0.lib.cache.map Prod.snd).map (fun p => (p.title, patStability p))) =
       some [("T", mkRat 17 20)]) ∧
    (addCandidate c3WitnessState 5 (convEvent "T" "A" (mkRat 1 2)) (mkRat 1 2)).isSome =
      true ∧
    (addCandidate c3WitnessState 5 (convEvent "T" "A" (mkRat 1 2)) (mkRat 1 2)).all
      (fun st2 =>
        (assocGet (hashPattern (convEvent "T" "A" (mkRat 1 2))) st2.candidates).isNone &&
        st2.capturedHashes.contains (hashPattern (convEvent "T" "A" (mkRat 1 2))) &&
        (c3WitnessState.capturedHashes.contains
            (hashPattern (convEvent "T" "A" (mkRat 1 2))) ||
          st2.stats.patternsCaptured == c3WitnessState.stats.patternsCaptured + 1)) =
      true :=
  c3_repeated_promotion c3WitnessState 5 (convEvent "T" "A" (mkRat 1 2)) (mkRat 1 2)
    { data := convEvent "T" "A" (mkRat 3 5), observations := 2,
      maxStability := mkRat 17 20, firstSeen := 0, lastSeen := 1 }
    (by decide) rfl (by decide) rfl (by decide) (by decide)

/-- Claim C4: once a (title, axiom) has been captured by
`_capture_pattern`, a later `observe` of any convergence event with the
identical (title, axiom) — any stability — succeeds and leaves the Store,
the candidate map, the hash set and the capture counter unchanged. -/
theorem c4_duplicate_suppression (st0 st1 : ObsState) (t0 t : ℕ) (d0 d : PyDict)
    (s0 s : ℚ) (e : String)
    (hcap : capturePattern st0 t0 d0 s0 = some st1)
    (hhash : hashPattern d = hashPattern d0)
    (hs : extractStability d = some s)
    (hsl : pySliceOk (pyGetD d "title" (PyVal.pstr "")) = true)
    (he : pyGetD d "event" (PyVal.pstr "unknown") = PyVal.pstr e)
    (hconv : convergenceKeywords.any (fun kw => strHas (strLower e) kw) = true) :
    ∃ st2, observe st1 t d = some st2 ∧ st2.lib = st1.lib ∧
      st2.candidates = st1.candidates ∧ st2.capturedHashes = st1.capturedHashes ∧
      st2.stats.patternsCaptured = st1.stats.patternsCaptured := by
  have hcon : st1.capturedHashes.contains (hashPattern d) = true := by
    rw [hhash]
    exact (capturePattern_out hcap).2.1
  rw [observe_conv_eq hs hsl he hconv]
  exact ⟨_, handleConvergence_dropped hcon, rfl, rfl, rfl, rfl⟩

/-- Claim C4, witness: capture (title "T", axiom "A") at 0.9, then
re-observe the identical payload. -/
theorem c4_witness :
    ∃ st2, observe c4PreState 1 c9Event = some st2 ∧ st2.lib = c4PreState.lib ∧
      st2.candidates = c4PreState.candidates ∧
      st2.capturedHashes = c4PreState.capturedHashes ∧
      st2.stats.patternsCaptured = c4PreState.stats.patternsCaptured :=
  c4_duplicate_suppression obs08 c4PreState 0 1 c9Event c9Event (mkRat 9 10)
    (mkRat 9 10) "convergence" rfl rfl (by decide) (by decide) rfl (by decide)

/-- Claim C5, counterexample: two `capture` calls supplying the explicit
`pattern_id` WIKAI_0001 return identical IDs (pairwise distinctness
fails) and the second overwrites the first cache entry (the id is
reassigned). -/
theorem c5_counterexample :
    (captureSeq emptyLib 0 [dupArgs, dupArgs]).1 = ["WIKAI_0001", "WIKAI_0001"] ∧
    ¬ (captureSeq emptyLib 0 [dupArgs, dupArgs]).1.Pairwise (· ≠ ·) ∧
    (captureSeq emptyLib 0 [dupArgs, dupArgs]).2.cache.length = 1 := by
  refine ⟨by decide, ?_, by decide⟩
  intro hp
  rw [(by decide : (captureSeq emptyLib 0 [dupArgs, dupArgs]).1 =
    ["WIKAI_0001", "WIKAI_0001"])] at hp
  exact (List.rel_of_pairwise_cons hp (List.mem_singleton.mpr rfl)) rfl

/-- Claim C5, amended: restricted to capture calls that omit `pattern_id`
(auto-generated IDs), any call sequence on one librarian yields pairwise
distinct IDs whose numeric suffixes are non-decreasing (in fact strictly
increasing) in call order, so no auto-generated id is ever reused within
the instance. -/
theorem c5_auto_ids (st : LibState) (now : ℕ) (args : List CapArgs)
    (h : ∀ a ∈ args, a.patternId = Option.none) :
    (captureSeq st now args).1.Pairwise (· ≠ ·) ∧
    ((captureSeq st now args).1.map idSuffix).Pairwise (· ≤ ·) := by
  rw [captureSeq_ids now args st h]
  constructor
  · refine List.Pairwise.map _ ?_ (List.pairwise_lt_range args.length)
    intro i j hij heq
    have := formatWikaiId_inj heq
    omega
  · rw [List.map_map]
    refine List.Pairwise.map _ ?_ (List.pairwise_lt_range args.length)
    intro i j hij
    show idSuffix (formatWikaiId (st.nextId + i)) ≤ idSuffix (formatWikaiId (st.nextId + j))
    rw [idSuffix_format, idSuffix_format]
    omega

/-- Claim C5, witness: two auto-id captures on a fresh librarian. -/
theorem c5_witness :
    (captureSeq emptyLib 0 [c1Args "t1" "a1", c1Args "t2" "a2"]).1.Pairwise (· ≠ ·) ∧
    ((captureSeq emptyLib 0 [c1Args "t1" "a1", c1Args "t2" "a2"]).1.map
      idSuffix).Pairwise (· ≤ ·) :=
  c5_auto_ids emptyLib 0 [c1Args "t1" "a1", c1Args "t2" "a2"] (by decide)

/-- Claim C6: for valid entry fields (non-empty title and axiom, with the
optional structured fields supplied), `get(capture(e))` returns the stored
entry, equal to the supplied fields in title, axiom, abstract, mechanism,
reasoning chain, metrics, tags and origin — only the id and timestamp are
newly assigned (the librarian stores no content hash at all). -/
theorem c6_round_trip (st : LibState) (now : ℕ) (a : CapArgs)
    (m : List (String × ℚ)) (sAx : String)
    (hid : a.patternId = Option.none)
    (ht : a.title ≠ "") (hax : a.axm = PyVal.pstr sAx) (haxne : sAx ≠ "")
    (hm : a.metrics = some m)
    (hmech : ∃ xs, a.mech = PyVal.pdict xs)
    (hre : ∃ xs, a.reasoning = PyVal.plist xs)
    (htg : ∃ xs, a.tags = PyVal.plist xs) :
    ∃ p, libGet (libCapture st now a).2 (libCapture st now a).1 = some p ∧
      p.title = a.title ∧ p.axm = a.axm ∧ p.abstractV = a.abstractV ∧
      p.mech = a.mech ∧ p.reasoning = a.reasoning ∧ p.metrics = m ∧
      p.tags = a.tags ∧ p.origin = a.origin := by
  obtain ⟨xs1, hmech⟩ := hmech
  obtain ⟨xs2, hre⟩ := hre
  obtain ⟨xs3, htg⟩ := htg
  simp only [libGet, libCapture]
  refine ⟨_, assocGet_set_self _ _ _, rfl, rfl, rfl, ?_, ?_, ?_, ?_, rfl⟩
  · rw [hmech]
    exact pyOrElse_dict xs1
  · rw [hre]
    exact pyOrElse_list xs2
  · rw [hm]
    rfl
  · rw [htg]
    exact pyOrElse_list xs3

/-- Claim C6, witness: a fully-populated capture round-trips. -/
theorem c6_witness :
    ∃ p, libGet (libCapture emptyLib 5 c6Args).2 (libCapture emptyLib 5 c6Args).1 =
        some p ∧
      p.title = c6Args.title ∧ p.axm = c6Args.axm ∧ p.abstractV = c6Args.abstractV ∧
      p.mech = c6Args.mech ∧ p.reasoning = c6Args.reasoning ∧
      p.metrics = [("stability_score", mkRat 49 50)] ∧
      p.tags = c6Args.tags ∧ p.origin = c6Args.origin :=
  c6_round_trip emptyLib 5 c6Args [("stability_score", mkRat 49 50)] "Ax" rfl
    (by decide) rfl (by decide) rfl ⟨_, rfl⟩ ⟨_, rfl⟩ ⟨_, rfl⟩

/-- Claim C7, counterexample: a stored pattern whose tags serialize to a
string containing "needle" satisfies the claim's text predicate, yet
`search("needle")` returns nothing — the source searches only title,
axiom and abstract, never the tags/mechanism serialization. -/
theorem c7_counterexample :
    (tagOnlyStore.cache.map fun kp => specTextMatch "needle" kp.2) = [true] ∧
    (libSearch tagOnlyStore (some "needle") Option.none 0 100).map List.length =
      some 0 := by
  constructor
  · simp [tagOnlyStore, tagOnlyArgs, libCapture, assocSet, specTextMatch, pyStrV,
      pyReprV, pyBodyL, sq]
    decide
  · decide

/-- Claim C7, amended: `search`'s filters AND together (tag filter,
stability filter, text filter), the text filter matching the query
case-insensitively as a substring of the concatenated title, axiom and
abstract only; `min_stability` admits exactly the entries with
`stability_score >= min_stability`; and for `limit >= 1` the result is
the filtered cache truncated to `limit` (a non-positive limit instead
returns one entry because the loop breaks after appending). -/
theorem c7_search_filters (st : LibState) (q : Option String)
    (tags : Option (List String)) (minS : ℚ) (limit : ℕ)
    (hWF : ∀ p ∈ st.cache.map Prod.snd, (tagStep tags p).isSome) (hl : 1 ≤ limit) :
    libSearch st q tags minS limit =
      some (((st.cache.map Prod.snd).filter (searchAdmits q tags minS)).take limit) :=
  libSearch_eq st q tags minS limit hWF hl

/-- Claim C7, witness: the amended statement on the one-pattern store. -/
theorem c7_witness :
    libSearch tagOnlyStore (some "a") Option.none 0 100 =
      some (((tagOnlyStore.cache.map Prod.snd).filter
        (searchAdmits (some "a") Option.none 0)).take 100) :=
  c7_search_filters tagOnlyStore (some "a") Option.none 0 100 (by decide) (by decide)

/-- Claim C8: the source stability extraction equals the specification's
ordered fallback chain — stability, stability_score, metrics.stability,
metrics.stability_score, health_score, coherence, components.coherence,
components.stability, then 1 - loss, first present key winning, and 0.0
when none are present. -/
theorem c8_extraction_chain (d : PyDict) :
    extractStability d = specExtractStability d :=
  extractStability_eq_spec d

/-- Claim C9: `force_capture` records no duplicate-suppression hash, so a
later observe of a convergence event with the same (title, axiom) at
stability 0.9 (above threshold) captures a second Store entry with the
same title and axiom. -/
theorem c9_force_capture_duplicate :
    (c9AfterForce.map fun r => r.2.capturedHashes) = some [] ∧
    (c9Final.map fun st =>
        st.lib.cache.map (fun kp => (kp.1, kp.2.title, pyStrV kp.2.axm))) =
      some [("WIKAI_0001", "T", "A"), ("WIKAI_0002", "T", "A")] :=
  ⟨by decide, by decide⟩

/-- Claim C10: with auto-capture disabled, observing a convergence event
at or above the threshold changes neither the Store, the candidate map,
the hash set nor any counter except `events_observed`; only the event
buffer and that counter change (configuration untouched). -/
theorem c10_auto_capture_off (st : ObsState) (now : ℕ) (d : PyDict) (s : ℚ)
    (e : String)
    (hauto : st.autoCapture = false)
    (hs : extractStability d = some s) (hth : st.threshold ≤ s)
    (hsl : pySliceOk (pyGetD d "title" (PyVal.pstr "")) = true)
    (he : pyGetD d "event" (PyVal.pstr "unknown") = PyVal.pstr e)
    (hconv : convergenceKeywords.any (fun kw => strHas (strLower e) kw) = true) :
    ∃ st2, observe st now d = some st2 ∧ st2.lib = st.lib ∧
      st2.candidates = st.candidates ∧ st2.capturedHashes = st.capturedHashes ∧
      st2.stats.patternsCaptured = st.stats.patternsCaptured ∧
      st2.stats.candidatesPromoted = st.stats.candidatesPromoted ∧
      st2.stats.candidatesRejected = st.stats.candidatesRejected ∧
      st2.stats.eventsObserved = st.stats.eventsObserved + 1 ∧
      st2.eventBuffer = dequePush st.eventBuffer (now, PyVal.pstr e, d) ∧
      st2.autoCapture = st.autoCapture ∧ st2.threshold = st.threshold ∧
      st2.systemName = st.systemName := by
  rw [observe_conv_eq hs hsl he hconv]
  exact ⟨_, handleConvergence_auto_off hauto hth, rfl, rfl, rfl, rfl, rfl, rfl, rfl,
    rfl, rfl, rfl, rfl⟩

/-- Claim C10, witness: an above-threshold convergence event on a fresh
auto-capture-off observer. -/
theorem c10_witness :
    ∃ st2, observe (mkObserver false (mkRat 4 5) "hostsys") 7 c9Event = some st2 ∧
      st2.lib = (mkObserver false (mkRat 4 5) "hostsys").lib ∧
      st2.candidates = (mkObserver false (mkRat 4 5) "hostsys").candidates ∧
      st2.capturedHashes = (mkObserver false (mkRat 4 5) "hostsys").capturedHashes ∧
      st2.stats.patternsCaptured =
        (mkObserver false (mkRat 4 5) "hostsys").stats.patternsCaptured ∧
      st2.stats.candidatesPromoted =
        (mkObserver false (mkRat 4 5) "hostsys").stats.candidatesPromoted ∧
      st2.stats.candidatesRejected =
        (mkObserver false (mkRat 4 5) "hostsys").stats.candidatesRejected ∧
      st2.stats.eventsObserved =
        (mkObserver false (mkRat 4 5) "hostsys").stats.eventsObserved + 1 ∧
      st2.eventBuffer = dequePush (mkObserver false (mkRat 4 5) "hostsys").eventBuffer
        (7, PyVal.pstr "convergence", c9Event) ∧
      st2.autoCapture = (mkObserver false (mkRat 4 5) "hostsys").autoCapture ∧
      st2.threshold = (mkObserver false (mkRat 4 5) "hostsys").threshold ∧
      st2.systemName = (mkObserver false (mkRat 4 5) "hostsys").systemName :=
  c10_auto_capture_off (mkObserver false (mkRat 4 5) "hostsys") 7 c9Event
    (mkRat 9 10) "convergence" rfl (by decide) (by decide) (by decide) rfl (by decide)

end Wikai
